import Mathlib

/-!
Verification development for the cellbyte_chat backend.

The definitions below are a shallow embedding of the backend's core
mechanisms, translated from the Python sources:

* `src/backend/src/llm_utils/analytics_utils.py` — code-fence stripping,
  the analytics execution harness, and the retry-bounded synthesis loop;
* `src/backend/src/llm_utils/plotting_utils.py` — the chart pipeline;
* `src/backend/src/agent.py` — conversation reconciliation in `chat`;
* `src/backend/src/llm_utils/csv_ingestion.py` — ingestion, deletion and
  the vector-index lifecycle;
* `src/backend/src/llm_utils/tools.py` — the `search_data` tool.

External effects (the LLM completion service, the embedding service,
Python `exec`, HTML serialization, similarity search) are modelled as
explicit oracle parameters; persisted on-disk state (metadata JSON, the
FAISS index files, the stored file copies) is modelled as an explicit
`StoreState` record threaded through the operations.  Python values that
can flow through the designated output variables are modelled by
`PyValue`; container elements are kept at one level of depth (deeper
structure is opaque via `PyPrim.pobj`, carrying its `str()` rendering).
-/

namespace CellByte

/-! ## Python value model -/

/-- Primitive (non-mapping) Python values, as far as the harness inspects
them: `None`, booleans, integers, strings, and a catch-all for any other
object carrying its `str()` rendering. -/
inductive PyPrim where
  | pnone
  | pbool (b : Bool)
  | pint (n : Int)
  | pstr (s : String)
  | pobj (rendering : String)
  deriving DecidableEq

/-- A Python value as seen by the execution harness: either a primitive
or a mapping (dict) from string keys to primitives. -/
inductive PyValue where
  | prim (v : PyPrim)
  | dict (entries : List (String × PyPrim))
  deriving DecidableEq

/-- Python truthiness for primitives. -/
def PyPrim.truthy : PyPrim → Bool
  | .pnone => false
  | .pbool b => b
  | .pint n => n != 0
  | .pstr s => s != ""
  | .pobj _ => true

/-- Python truthiness: a dict is truthy iff non-empty. -/
def PyValue.truthy : PyValue → Bool
  | .prim v => v.truthy
  | .dict es => es != []

/-- Python `str()` on a primitive value. -/
def PyPrim.pyStr : PyPrim → String
  | .pnone => "None"
  | .pbool b => if b then "True" else "False"
  | .pint n => toString n
  | .pstr s => s
  | .pobj r => r

/-- Dict lookup (`d.get(k)` / `k in d` support): first binding of `k`. -/
def dictGet (es : List (String × PyPrim)) (k : String) : Option PyPrim :=
  (es.find? (fun e => e.1 == k)).map (fun e => e.2)

/-- Dict assignment `d[k] = v`: overwrite the binding if the key is
present, append it otherwise. -/
def dictSet (es : List (String × PyPrim)) (k : String) (v : PyPrim) :
    List (String × PyPrim) :=
  if es.any (fun e => e.1 == k) then
    es.map (fun e => if e.1 == k then (k, v) else e)
  else
    es ++ [(k, v)]

/-- A raised Python exception: its type name and message, as used by
`f"{type(e).__name__}: {str(e)}"`. -/
structure PyError where
  kind : String
  msg : String
  deriving DecidableEq

/-- The `"{ExceptionKind}: {message}"` rendering of an exception. -/
def PyError.format (e : PyError) : String := e.kind ++ ": " ++ e.msg

/-- Outcome of running a code snippet through Python `exec` with separate
globals/locals dicts: either an exception, or the bindings the snippet
left for the designated output variable in `exec_locals` and
`exec_globals` (`none` means the variable is absent from that dict). -/
abbrev ExecOutcome := Except PyError (Option PyValue × Option PyValue)

/-- Model of `exec_locals.get(name) or exec_globals.get(name)`: Python
`or` takes the left operand when truthy, the right operand otherwise, and
`dict.get` yields `None` for an absent key. -/
def getDesignated (lcls glbls : Option PyValue) : PyValue :=
  let a := lcls.getD (.prim .pnone)
  if a.truthy then a else glbls.getD (.prim .pnone)

/-! ## Code-fence stripping (`_clean_code` in analytics_utils.py) -/

/-- Whitespace predicate modelling the default character set of Python
`str.strip`. -/
def isPySpace (c : Char) : Bool := c.isWhitespace

/-- Python `str.strip()` on a character list: drop whitespace from the
front, then from the back. -/
def pyStripL (l : List Char) : List Char :=
  (l.dropWhile isPySpace).rdropWhile isPySpace

/-- Python `str.strip()`. -/
def pyStrip (s : String) : String := ⟨pyStripL s.data⟩

/-- Python `str.startswith`: is the first list a prefix of the second? -/
def startsWithL : List Char → List Char → Bool
  | [], _ => true
  | _ :: _, [] => false
  | p :: ps, c :: cs => p == c && startsWithL ps cs

/-- Python `str.endswith`: is the first list a suffix of the second? -/
def endsWithL (p l : List Char) : Bool := startsWithL p.reverse l.reverse

/-- The three-backtick code-fence marker. -/
def fenceTicks : List Char := "```".data

/-- The ```` ```python ```` opening-fence marker. -/
def fencePython : List Char := "```python".data

/-- Character-level model of `_clean_code`: strip a leading
```` ```python ```` (9 characters), then a leading ```` ``` ```` (3
characters), then a trailing ```` ``` ```` (last 3 characters), then
whitespace at both ends. -/
def clean_codeL (code : List Char) : List Char :=
  let c1 := if startsWithL fencePython code then code.drop 9 else code
  let c2 := if startsWithL fenceTicks c1 then c1.drop 3 else c1
  let c3 := if endsWithL fenceTicks c2 then c2.take (c2.length - 3) else c2
  pyStripL c3

/-- The `_clean_code` function of `analytics_utils.py`. -/
def clean_code (code : String) : String := ⟨clean_codeL code.data⟩

/-! ## Analytics execution harness and retry loop (analytics_utils.py) -/

/-- The dict returned by the analytics harness. -/
abbrev AnalyticsDict := List (String × PyPrim)

/-- Model of `_execute_analytics_code` applied to the outcome of `exec`:
read the designated `result` variable through the locals-`or`-globals
chain, raise `ValueError` when it is `None`, coerce a non-dict value to
`{"summary": str(result), "data": result}`, and default a missing
`"summary"` key to `"Analysis completed."`. -/
def execute_analytics_code (outcome : ExecOutcome) : Except PyError AnalyticsDict :=
  match outcome with
  | .error e => .error e
  | .ok (lcls, glbls) =>
    let result := getDesignated lcls glbls
    if result = .prim .pnone then
      .error ⟨"ValueError", "No \x27result\x27 variable created"⟩
    else
      match result with
      | .prim v => .ok [("summary", .pstr v.pyStr), ("data", v)]
      | .dict es =>
        if (dictGet es "summary").isNone then
          .ok (es ++ [("summary", .pstr "Analysis completed.")])
        else
          .ok es

/-- A message of the synthesis transcript (`HumanMessage` / `AIMessage`). -/
inductive ChatMsg where
  | human (content : String)
  | ai (content : String)
  deriving DecidableEq

/-- The retry bound of the synthesis loop. -/
def MAX_RETRIES : Nat := 3

/-- The analytics system prompt, as assembled in `run_analytics` around
the formatted dataset context. -/
def analytics_system_prompt (context_str : String) : String :=
  "You are a Python data analytics expert. Generate analysis code.\n\n" ++
    context_str ++
    "\n\nREQUIREMENTS:\n1. Use pandas, numpy, scipy.stats as needed\n2. DataFrame is loaded as `df`\n3. Store result in variable `result` as dict with:\n   - \"summary\": human-readable findings string\n   - \"data\": numerical/tabular results\n4. Handle NaN values appropriately\n5. Round numbers to 4 decimal places\n6. Only use columns that exist in the dataset above\n7. Return ONLY Python code, no markdown or explanations"

/-- The error-feedback turn appended after a failed attempt. -/
def error_feedback (error_msg : String) : ChatMsg :=
  ChatMsg.human ("ERROR: " ++ error_msg ++
    "\n\nFix the code. Only use columns that exist. Return ONLY the corrected Python code:")

/-- The initial transcript of a synthesis session. -/
def seedMessages (context_str request : String) : List ChatMsg :=
  [ChatMsg.human (analytics_system_prompt context_str ++ "\n\nUSER REQUEST: " ++ request)]

/-- The `for attempt in range(MAX_RETRIES)` loop of `run_analytics`,
with the remaining iteration count as fuel (`fuel = MAX_RETRIES` at
entry; `attempt < MAX_RETRIES - 1` is `fuel > 0` after consuming one
unit).  The completion service and `exec` are explicit oracles; the
second component counts completion-service calls.  A failed final
attempt re-raises the last execution exception; the fallthrough
`RuntimeError` after the loop corresponds to zero fuel. -/
def run_analytics_loop (llm : List ChatMsg → String) (ex : String → ExecOutcome) :
    Nat → List ChatMsg → Except PyError AnalyticsDict × Nat
  | 0, _ => (.error ⟨"RuntimeError", "Analytics failed"⟩, 0)
  | fuel + 1, messages =>
    let response := llm messages
    let code := clean_code response
    let messages2 := messages ++ [ChatMsg.ai response]
    match execute_analytics_code (ex code) with
    | .ok result => (.ok (dictSet result "code" (.pstr code)), 1)
    | .error e =>
      if fuel = 0 then
        (.error e, 1)
      else
        let next := run_analytics_loop llm ex fuel (messages2 ++ [error_feedback e.format])
        (next.1, next.2 + 1)

/-- The transcript after one failed attempt: the assistant's response is
appended, then the error-feedback human turn. -/
def afterFailure (llm : List ChatMsg → String) (messages : List ChatMsg) (e : PyError) :
    List ChatMsg :=
  (messages ++ [ChatMsg.ai (llm messages)]) ++ [error_feedback e.format]

/-- Model of `run_analytics`: load the dataset (an absent dataset raises
`FileNotFoundError` before any completion call), seed the transcript, and
run the bounded synthesis loop.  The dataset-context string is an input
(in the source it is formatted from the loaded dataframe and the stored
file metadata before the loop starts). -/
def run_analytics (llm : List ChatMsg → String) (ex : String → ExecOutcome)
    (df : Option Unit) (filename : String) (available : List String)
    (context_str request : String) : Except PyError AnalyticsDict × Nat :=
  match df with
  | none =>
    (.error ⟨"FileNotFoundError",
      "File \x27" ++ filename ++ "\x27 not found. Available: " ++
        (if available.isEmpty then "None" else String.intercalate ", " available)⟩, 0)
  | some _ => run_analytics_loop llm ex MAX_RETRIES (seedMessages context_str request)

/-! ## Chart pipeline (plotting_utils.py) -/

/-- Character-level model of the response cleanup in
`generate_plot_code`: the raw completion is stripped first
(`response.content.strip()`), then the fence markers are removed as in
`_clean_code`, then the result is stripped again. -/
def generate_plot_codeL (raw : List Char) : List Char :=
  let code := pyStripL raw
  let c1 := if startsWithL fencePython code then code.drop 9 else code
  let c2 := if startsWithL fenceTicks c1 then c1.drop 3 else c1
  let c3 := if endsWithL fenceTicks c2 then c2.take (c2.length - 3) else c2
  pyStripL c3

/-- Model of `generate_plot_code`: one completion call on the assembled
prompt, then cleanup.  The prompt is an input (in the source it is
formatted from the dataset context before the call). -/
def generate_plot_code (llm : String → String) (prompt : String) : String :=
  ⟨generate_plot_codeL (llm prompt).data⟩

/-- Model of `execute_plot_code`: run the snippet, read the designated
`fig` variable through the locals-`or`-globals chain, raise `ValueError`
when it is `None`, and serialize the figure to HTML (an oracle, since
`fig.to_html` is a Plotly method that may itself raise). -/
def execute_plot_code (ex : String → ExecOutcome)
    (toHtml : PyValue → Except PyError String) (code : String) :
    Except PyError String :=
  match ex code with
  | .error e => .error e
  | .ok (lcls, glbls) =>
    let fig := getDesignated lcls glbls
    if fig = .prim .pnone then
      .error ⟨"ValueError", "Code executed but no \x27fig\x27 variable was created"⟩
    else
      toHtml fig

/-- Model of `create_plot_from_request`: load the dataset, generate code
with a single completion call, execute once, and return
`(html, generated_code)`.  The second component counts
completion-service calls. -/
def create_plot_from_request (llm : String → String) (ex : String → ExecOutcome)
    (toHtml : PyValue → Except PyError String) (df : Option Unit)
    (filename : String) (available : List String) (prompt : String) :
    Except PyError (String × String) × Nat :=
  match df with
  | none =>
    (.error ⟨"FileNotFoundError",
      "File \x27" ++ filename ++ "\x27 not found. Available files: " ++
        (if available.isEmpty then "None" else String.intercalate ", " available)⟩, 0)
  | some _ =>
    let code := generate_plot_code llm prompt
    match execute_plot_code ex toHtml code with
    | .error e => (.error e, 1)
    | .ok html => (.ok (html, code), 1)

/-! ## Conversation reconciliation (agent.py) -/

/-- A tool-call record carried by an assistant turn. -/
structure ToolCall where
  id : String
  name : String
  args : String
  deriving DecidableEq

/-- One turn of the persisted flat history.  An assistant turn whose
`tool_calls` list is empty corresponds to a history dict without a
`tool_calls` key (Python truthiness makes the two indistinguishable to
`chat`). -/
inductive Turn where
  | user (content : String)
  | assistant (content : String) (tool_calls : List ToolCall)
  | tool (tool_call_id : String) (content : String)
  deriving DecidableEq

/-- A native message of the agent runtime (`HumanMessage`, `AIMessage`,
`ToolMessage`, `SystemMessage`). -/
inductive NativeMsg where
  | human (content : String)
  | ai (content : String) (tool_calls : List ToolCall)
  | toolMsg (tool_call_id : String) (content : String)
  | system (content : String)
  deriving DecidableEq

/-- Reconstruction of one history turn as a native message (the
history-to-messages loop of `chat`): an assistant turn becomes an
`AIMessage` carrying its tool calls when the `tool_calls` entry is
truthy. -/
def turnToMessage : Turn → NativeMsg
  | .user c => .human c
  | .assistant c tcs => if tcs.isEmpty then .ai c [] else .ai c tcs
  | .tool id c => .toolMsg id c

/-- Flattening of one native message back to a turn (the
result-to-history loop of `chat`); message kinds outside the three
handled classes are skipped. -/
def messageToTurn : NativeMsg → Option Turn
  | .human c => some (.user c)
  | .ai c tcs => some (.assistant c tcs)
  | .toolMsg id c => some (.tool id c)
  | .system _ => none

/-- Flattening of a native message sequence. -/
def flattenMessages (ms : List NativeMsg) : List Turn :=
  ms.filterMap messageToTurn

/-- The `content` attribute of a native message. -/
def msgContent : NativeMsg → String
  | .human c => c
  | .ai c _ => c
  | .toolMsg _ c => c
  | .system c => c

/-- Model of `CellByteAgent.chat`: rebuild native messages from the flat
history, append the new user message, invoke the agent runtime (an
oracle from the full native sequence to the extended sequence), then
append the flattened new messages — starting at `len(messages) - 1` — to
a copy of the input history.  Returns the final message's content and
the updated history. -/
def chat (agent : List NativeMsg → List NativeMsg) (message : String)
    (history : List Turn) : String × List Turn :=
  let messages := history.map turnToMessage ++ [NativeMsg.human message]
  let result := agent messages
  let startIdx := messages.length - 1
  let newHistory := history ++ flattenMessages (result.drop startIdx)
  (msgContent (result.getLastD (NativeMsg.human "")), newHistory)

/-! ## Vector-index lifecycle (csv_ingestion.py, tools.py) -/

/-- One row of a tabular file: ordered column/value pairs. -/
abbrev RowData := List (String × String)

/-- A loaded tabular file. -/
abbrev Table := List RowData

/-- The `" | ".join(f"{col}: {val}" ...)` row rendering of
`_csv_to_documents`. -/
def rowText (row : RowData) : String :=
  String.intercalate " | " (row.map (fun cv => cv.1 ++ ": " ++ cv.2))

/-- One indexed document: per-row text plus `source` and `row_index`
metadata. -/
structure Doc where
  page_content : String
  source : String
  row_index : Nat
  deriving DecidableEq

/-- The `_csv_to_documents` conversion: one document per row, in row
order, tagged with the source file name and the row position. -/
def csv_to_documents (table : Table) (filename : String) : List Doc :=
  table.enum.map (fun ir => ⟨rowText ir.2, filename, ir.1⟩)

/-- The metadata entry stored per registered file (timestamp and the
derived statistics/sample fields are omitted as opaque display data not
read by any modelled operation). -/
structure FileMeta where
  name : String
  description : String
  row_count : Nat
  columns : List String
  deriving DecidableEq

/-- The persisted backend state: the stored file copies (`FILES_DIR`),
the metadata file's registered-file list, and the on-disk FAISS index
(`none` when no index artifact exists). -/
structure StoreState where
  files : List (String × Table)
  metadata : List FileMeta
  index : Option (List Doc)
  deriving DecidableEq

/-- `shutil.copy2` into `FILES_DIR`: overwrite the stored copy if the
name exists, add it otherwise. -/
def fileStoreSet (fs : List (String × Table)) (name : String) (table : Table) :
    List (String × Table) :=
  if fs.any (fun e => e.1 == name) then
    fs.map (fun e => if e.1 == name then (name, table) else e)
  else
    fs ++ [(name, table)]

/-- The stored rows of a file name (empty when absent). -/
def lookupTable (fs : List (String × Table)) (name : String) : Table :=
  ((fs.find? (fun e => e.1 == name)).map (fun e => e.2)).getD []

/-- Replace the first metadata entry with a matching name. -/
def replaceFirstMeta : List FileMeta → FileMeta → List FileMeta
  | [], _ => []
  | m :: ms, fm => if m.name == fm.name then fm :: ms else m :: replaceFirstMeta ms fm

/-- The metadata update of `ingest_file`: replace the entry at the first
matching index when one exists, append otherwise. -/
def metadataUpsert (ms : List FileMeta) (fm : FileMeta) : List FileMeta :=
  if ms.any (fun m => m.name == fm.name) then replaceFirstMeta ms fm else ms ++ [fm]

/-- The result dict of `ingest_file` (the `file_type` field is omitted
as opaque). -/
structure IngestResult where
  status : String
  name : String
  description : String
  rows_indexed : Nat
  deriving DecidableEq

/-- The column list of a loaded table (from its first row; a dataframe's
column set is uniform across rows). -/
def columnsOf (table : Table) : List String :=
  (table.headD []).map (fun cv => cv.1)

/-- Model of `ingest_file`: copy the file into the store, convert rows
to documents, add them to the existing index when one is on disk (or
build a fresh index from them otherwise), and upsert the metadata entry.
The LLM-generated description is an input (an oracle in the source). -/
def ingest_file (s : StoreState) (filename : String) (table : Table)
    (description : String) : StoreState × IngestResult :=
  let files := fileStoreSet s.files filename table
  let documents := csv_to_documents table filename
  let index :=
    match s.index with
    | some docs => some (docs ++ documents)
    | none => some documents
  let fm : FileMeta := ⟨filename, description, table.length, columnsOf table⟩
  let metadata := metadataUpsert s.metadata fm
  (⟨files, metadata, index⟩, ⟨"success", filename, description, documents.length⟩)

/-- The result dict of `delete_file`. -/
structure DeleteResult where
  status : String
  name : String
  remaining_files : Nat
  deriving DecidableEq

/-- Model of `delete_file`: raise `ValueError` (with no state change)
when the name is not registered; otherwise drop its metadata entries,
and — when an index is on disk — delete the index files and rebuild from
the documents whose `source` differs, leaving no index when none
remain. -/
def delete_file (s : StoreState) (filename : String) :
    StoreState × Except PyError DeleteResult :=
  let file_exists := s.metadata.any (fun f => f.name == filename)
  if file_exists = false then
    (s, .error ⟨"ValueError", "File \x27" ++ filename ++ "\x27 not found in metadata"⟩)
  else
    let metadata := s.metadata.filter (fun f => f.name != filename)
    let index :=
      match s.index with
      | some docs =>
        let remaining := docs.filter (fun d => d.source != filename)
        if remaining.isEmpty then none else some remaining
      | none => none
    (⟨s.files, metadata, index⟩, .ok ⟨"deleted", filename, metadata.length⟩)

/-- Model of the `search_data` tool: the defined empty answer when no
index exists on disk, the defined no-match answer when similarity search
returns nothing, and the formatted rows otherwise.  Similarity search
(top-5 by embedding distance) is an oracle over the indexed documents. -/
def search_data (sim : List Doc → String → List Doc) (s : StoreState)
    (query : String) : String :=
  match s.index with
  | none => "No data has been ingested yet. Please upload CSV files first."
  | some docs =>
    let found := sim docs query
    if found.isEmpty then
      "No relevant data found for your query."
    else
      String.intercalate "\n\n"
        (found.map (fun d => "[From " ++ d.source ++ "]: " ++ d.page_content))

/-- The documents of all currently registered files, computed from the
stored file copies. -/
def registeredDocs (s : StoreState) : List Doc :=
  (s.metadata.map (fun m => csv_to_documents (lookupTable s.files m.name) m.name)).flatten

/-- The documents of the on-disk index (empty when no index exists). -/
def indexDocs (s : StoreState) : List Doc := s.index.getD []

/-- The spec's invariant as claimed: the on-disk index, when present,
holds exactly (as a multiset) the union of the per-row documents of the
registered files. -/
def indexConsistent (s : StoreState) : Prop :=
  ∀ docs, s.index = some docs → List.Perm docs (registeredDocs s)

/-- The two-sided store invariant: the index documents (empty when no
index exists) are exactly the registered documents, as a multiset. -/
def storeInv (s : StoreState) : Prop :=
  List.Perm (indexDocs s) (registeredDocs s)

/-! ## Association-list lemmas shared by the dict and store models -/

/-- Is an optional primitive a string value? -/
def isStringValue : Option PyPrim → Bool
  | some (.pstr _) => true
  | _ => false

theorem find?_overwrite_self {β : Type} (es : List (String × β)) (k : String) (v : β) :
    (es.map (fun e => if e.1 == k then (k, v) else e)).find? (fun e => e.1 == k) =
      (es.find? (fun e => e.1 == k)).map (fun _ => (k, v)) := by
  induction es with
  | nil => rfl
  | cons e es ih =>
    by_cases he : e.1 = k
    · have hek : (e.1 == k) = true := beq_iff_eq.mpr he
      rw [List.map_cons, if_pos hek,
        List.find?_cons_of_pos (p := fun (e : String × β) => e.1 == k) _
          (show ((k, v).1 == k) = true from beq_iff_eq.mpr rfl),
        List.find?_cons_of_pos (p := fun (e : String × β) => e.1 == k) _ hek]
      rfl
    · have hek : ¬ ((e.1 == k) = true) := by simpa using he
      rw [List.map_cons, if_neg (by simpa using he),
        List.find?_cons_of_neg (p := fun (e : String × β) => e.1 == k) _ hek,
        List.find?_cons_of_neg (p := fun (e : String × β) => e.1 == k) _ hek, ih]

theorem find?_overwrite_ne {β : Type} (es : List (String × β)) (k : String) (v : β)
    (nm : String) (h : nm ≠ k) :
    (es.map (fun e => if e.1 == k then (k, v) else e)).find? (fun e => e.1 == nm) =
      es.find? (fun e => e.1 == nm) := by
  induction es with
  | nil => rfl
  | cons e es ih =>
    by_cases he : e.1 = k
    · have hkn : ¬ (((k, v).1 == nm) = true) := by simpa using (Ne.symm h)
      have hen : ¬ ((e.1 == nm) = true) := by
        simp only [beq_iff_eq]
        rw [he]
        exact Ne.symm h
      rw [List.map_cons, if_pos (beq_iff_eq.mpr he),
        List.find?_cons_of_neg (p := fun (e : String × β) => e.1 == nm) _ hkn,
        List.find?_cons_of_neg (p := fun (e : String × β) => e.1 == nm) _ hen, ih]
    · rw [List.map_cons, if_neg (by simpa using he)]
      by_cases hn : e.1 = nm
      · rw [List.find?_cons_of_pos (p := fun (e : String × β) => e.1 == nm) _ (beq_iff_eq.mpr hn),
          List.find?_cons_of_pos (p := fun (e : String × β) => e.1 == nm) _ (beq_iff_eq.mpr hn)]
      · rw [List.find?_cons_of_neg (p := fun (e : String × β) => e.1 == nm) _ (by simpa using hn),
          List.find?_cons_of_neg (p := fun (e : String × β) => e.1 == nm) _ (by simpa using hn), ih]

theorem dictGet_dictSet_self (es : AnalyticsDict) (k : String) (v : PyPrim) :
    dictGet (dictSet es k v) k = some v := by
  unfold dictSet
  by_cases hA : es.any (fun e => e.1 == k)
  · rw [if_pos hA]
    unfold dictGet
    rw [find?_overwrite_self]
    obtain ⟨e, he, hek⟩ := List.any_eq_true.mp hA
    rcases hf : es.find? (fun e => e.1 == k) with _ | e0
    · exact absurd (List.find?_eq_none.mp hf e he) (by simp_all)
    · rw [hf]
      rfl
  · rw [if_neg hA]
    unfold dictGet
    rw [List.find?_append]
    have hend : es.find? (fun e => e.1 == k) = none :=
      List.find?_eq_none.mpr (by
        intro x hx
        have := List.any_eq_false.mp (Bool.eq_false_iff.mpr hA) x hx
        simpa using this)
    simp [hend]

theorem dictGet_dictSet_ne (es : AnalyticsDict) (k : String) (v : PyPrim)
    (nm : String) (h : nm ≠ k) :
    dictGet (dictSet es k v) nm = dictGet es nm := by
  unfold dictSet
  by_cases hA : es.any (fun e => e.1 == k)
  · rw [if_pos hA]
    unfold dictGet
    rw [find?_overwrite_ne es k v nm h]
  · rw [if_neg hA]
    unfold dictGet
    rw [List.find?_append]
    have hkn : (k == nm) = false := by simp [Ne.symm h]
    rcases hf : es.find? (fun e => e.1 == nm) with _ | e0 <;> simp [hkn]

/-! ## Lemmas about the synthesis loop -/

theorem run_analytics_loop_succ (llm : List ChatMsg → String) (ex : String → ExecOutcome)
    (fuel : Nat) (messages : List ChatMsg) :
    run_analytics_loop llm ex (fuel + 1) messages =
      match execute_analytics_code (ex (clean_code (llm messages))) with
      | .ok result => (.ok (dictSet result "code" (.pstr (clean_code (llm messages)))), 1)
      | .error e =>
        if fuel = 0 then
          (.error e, 1)
        else
          ((run_analytics_loop llm ex fuel (afterFailure llm messages e)).1,
           (run_analytics_loop llm ex fuel (afterFailure llm messages e)).2 + 1) := by
  rfl

theorem run_analytics_loop_succ_ok (llm : List ChatMsg → String) (ex : String → ExecOutcome)
    (fuel : Nat) (messages : List ChatMsg) (result : AnalyticsDict)
    (h : execute_analytics_code (ex (clean_code (llm messages))) = .ok result) :
    run_analytics_loop llm ex (fuel + 1) messages =
      (.ok (dictSet result "code" (.pstr (clean_code (llm messages)))), 1) := by
  rw [run_analytics_loop_succ, h]

theorem run_analytics_loop_succ_err (llm : List ChatMsg → String) (ex : String → ExecOutcome)
    (fuel : Nat) (messages : List ChatMsg) (e : PyError)
    (h : execute_analytics_code (ex (clean_code (llm messages))) = .error e) :
    run_analytics_loop llm ex (fuel + 1) messages =
      if fuel = 0 then
        (.error e, 1)
      else
        ((run_analytics_loop llm ex fuel (afterFailure llm messages e)).1,
         (run_analytics_loop llm ex fuel (afterFailure llm messages e)).2 + 1) := by
  rw [run_analytics_loop_succ, h]

theorem run_analytics_loop_calls_le (llm : List ChatMsg → String) (ex : String → ExecOutcome) :
    ∀ (fuel : Nat) (messages : List ChatMsg),
      (run_analytics_loop llm ex fuel messages).2 ≤ fuel := by
  intro fuel
  induction fuel with
  | zero => intro messages; exact Nat.le_refl 0
  | succ n ih =>
    intro messages
    rcases hE : execute_analytics_code (ex (clean_code (llm messages))) with e | r
    · rw [run_analytics_loop_succ_err llm ex n messages e hE]
      by_cases hn : n = 0
      · rw [if_pos hn, hn]
      · rw [if_neg hn]
        exact Nat.succ_le_succ (ih _)
    · rw [run_analytics_loop_succ_ok llm ex n messages r hE]
      exact Nat.succ_le_succ (Nat.zero_le n)

theorem run_analytics_calls_le (llm : List ChatMsg → String) (ex : String → ExecOutcome)
    (df : Option Unit) (filename : String) (available : List String)
    (context_str request : String) :
    (run_analytics llm ex df filename available context_str request).2 ≤ MAX_RETRIES := by
  cases df with
  | none => exact Nat.zero_le _
  | some u => exact run_analytics_loop_calls_le llm ex MAX_RETRIES _

theorem run_analytics_loop_ok_shape (llm : List ChatMsg → String) (ex : String → ExecOutcome) :
    ∀ (fuel : Nat) (messages : List ChatMsg) (R : AnalyticsDict),
      (run_analytics_loop llm ex fuel messages).1 = .ok R →
      ∃ r code, execute_analytics_code (ex code) = .ok r ∧
        R = dictSet r "code" (.pstr code) := by
  intro fuel
  induction fuel with
  | zero =>
    intro messages R h
    exact absurd h (by simp [run_analytics_loop])
  | succ n ih =>
    intro messages R h
    rcases hE : execute_analytics_code (ex (clean_code (llm messages))) with e | r
    · rw [run_analytics_loop_succ_err llm ex n messages e hE] at h
      by_cases hn : n = 0
      · rw [if_pos hn] at h
        exact absurd h (by simp)
      · rw [if_neg hn] at h
        exact ih _ R h
    · rw [run_analytics_loop_succ_ok llm ex n messages r hE] at h
      have h2 : (Except.ok (dictSet r "code" (.pstr (clean_code (llm messages))))
          : Except PyError AnalyticsDict) = .ok R := h
      injection h2 with h3
      exact ⟨r, clean_code (llm messages), hE, h3.symm⟩

theorem execute_analytics_code_ok_summary (o : ExecOutcome) (r : AnalyticsDict)
    (h : execute_analytics_code o = .ok r) : ∃ v, dictGet r "summary" = some v := by
  rcases o with e | ⟨lcls, glbls⟩
  · exact absurd h (by simp [execute_analytics_code])
  · simp only [execute_analytics_code] at h
    rcases hval : getDesignated lcls glbls with v | es
    · rw [hval] at h
      by_cases hv : v = PyPrim.pnone
      · rw [if_pos (by rw [hv])] at h
        exact Except.noConfusion h
      · rw [if_neg (by intro hh; exact hv (PyValue.prim.inj hh))] at h
        have h2 : (Except.ok [("summary", PyPrim.pstr v.pyStr), ("data", v)]
            : Except PyError AnalyticsDict) = .ok r := h
        injection h2 with h3
        subst h3
        exact ⟨PyPrim.pstr v.pyStr, rfl⟩
    · rw [hval] at h
      rw [if_neg (by intro hh; exact PyValue.noConfusion hh)] at h
      replace h : (if (dictGet es "summary").isNone = true then
          Except.ok (α := AnalyticsDict) (es ++ [("summary", PyPrim.pstr "Analysis completed.")])
          else Except.ok es) = Except.ok r := h
      by_cases hs : (dictGet es "summary").isNone
      · rw [if_pos hs] at h
        have h2 : (Except.ok (es ++ [("summary", PyPrim.pstr "Analysis completed.")])
            : Except PyError AnalyticsDict) = .ok r := h
        injection h2 with h3
        subst h3
        have hnone : es.find? (fun e => e.1 == "summary") = none := by
          unfold dictGet at hs
          rcases hf : es.find? (fun e => e.1 == "summary") with _ | e0
          · exact hf
          · rw [hf] at hs; simp at hs
        refine ⟨PyPrim.pstr "Analysis completed.", ?_⟩
        unfold dictGet
        rw [List.find?_append, hnone]
        rfl
      · rw [if_neg hs] at h
        have h2 : (Except.ok es : Except PyError AnalyticsDict) = .ok r := h
        injection h2 with h3
        subst h3
        rcases hg : dictGet es "summary" with _ | v
        · rw [hg] at hs; simp at hs
        · exact ⟨v, rfl⟩

/-! ## C1: the reconciler appends and never rewrites the given history -/

/-- C1: for every history `H` and message `m`, `chat(m, H)` returns an
updated history whose prefix is exactly `H` — no turn of `H` is mutated
or dropped — and the newly produced turns (the flattened agent-runtime
messages from the index of the new user message onward) are appended
after that prefix. -/
theorem c1_chat_appends_to_history (agent : List NativeMsg → List NativeMsg)
    (message : String) (history : List Turn) :
    (chat agent message history).2 =
      history ++ flattenMessages
        ((agent (history.map turnToMessage ++ [NativeMsg.human message])).drop
          history.length) ∧
    ((chat agent message history).2).take history.length = history := by
  have hlen : (history.map turnToMessage ++ [NativeMsg.human message]).length - 1 =
      history.length := by
    simp
  have key : (chat agent message history).2 =
      history ++ flattenMessages
        ((agent (history.map turnToMessage ++ [NativeMsg.human message])).drop
          history.length) := by
    show history ++ flattenMessages
        ((agent (history.map turnToMessage ++ [NativeMsg.human message])).drop
          ((history.map turnToMessage ++ [NativeMsg.human message]).length - 1)) = _
    rw [hlen]
  refine ⟨key, ?_⟩
  rw [key]
  exact List.take_left _ _

/-! ## C4: retry bound and the two-failures-then-success scenario -/

/-- C4: the synthesis loop never calls the completion service more than
`MAX_RETRIES` times per invocation; and for a request whose first two
generated snippets raise on execution while the third executes
successfully, the loop returns the third result (with the final snippet
recorded under `"code"`) and makes exactly 3 completion calls. -/
theorem c4_retry_bound_and_third_attempt_success
    (llm : List ChatMsg → String) (ex : String → ExecOutcome)
    (filename : String) (available : List String) (context_str request : String)
    (e1 e2 : PyError) (r : AnalyticsDict)
    (h1 : execute_analytics_code
      (ex (clean_code (llm (seedMessages context_str request)))) = .error e1)
    (h2 : execute_analytics_code (ex (clean_code (llm
      (afterFailure llm (seedMessages context_str request) e1)))) = .error e2)
    (h3 : execute_analytics_code (ex (clean_code (llm
      (afterFailure llm (afterFailure llm (seedMessages context_str request) e1) e2)))) =
        .ok r) :
    (∀ (llm2 : List ChatMsg → String) (ex2 : String → ExecOutcome)
        (df : Option Unit) (fn : String) (av : List String) (cs rq : String),
      (run_analytics llm2 ex2 df fn av cs rq).2 ≤ MAX_RETRIES) ∧
    run_analytics llm ex (some ()) filename available context_str request =
      (.ok (dictSet r "code" (.pstr (clean_code (llm
        (afterFailure llm (afterFailure llm (seedMessages context_str request) e1) e2))))),
       3) := by
  refine ⟨fun llm2 ex2 df fn av cs rq => run_analytics_calls_le llm2 ex2 df fn av cs rq, ?_⟩
  have A1 : run_analytics_loop llm ex 3 (seedMessages context_str request) =
      ((run_analytics_loop llm ex 2
          (afterFailure llm (seedMessages context_str request) e1)).1,
       (run_analytics_loop llm ex 2
          (afterFailure llm (seedMessages context_str request) e1)).2 + 1) := by
    have h := run_analytics_loop_succ_err llm ex 2 (seedMessages context_str request) e1 h1
    rw [if_neg (by decide : ¬ ((2 : Nat) = 0))] at h
    exact h
  have A2 : run_analytics_loop llm ex 2
      (afterFailure llm (seedMessages context_str request) e1) =
      ((run_analytics_loop llm ex 1
          (afterFailure llm (afterFailure llm (seedMessages context_str request) e1) e2)).1,
       (run_analytics_loop llm ex 1
          (afterFailure llm (afterFailure llm (seedMessages context_str request) e1) e2)).2
         + 1) := by
    have h := run_analytics_loop_succ_err llm ex 1
      (afterFailure llm (seedMessages context_str request) e1) e2 h2
    rw [if_neg (by decide : ¬ ((1 : Nat) = 0))] at h
    exact h
  have A3 : run_analytics_loop llm ex 1
      (afterFailure llm (afterFailure llm (seedMessages context_str request) e1) e2) =
      (.ok (dictSet r "code" (.pstr (clean_code (llm
        (afterFailure llm (afterFailure llm (seedMessages context_str request) e1) e2))))),
       1) :=
    run_analytics_loop_succ_ok llm ex 0 _ r h3
  show run_analytics_loop llm ex 3 (seedMessages context_str request) = _
  rw [A1, A2, A3]

/-- Completion oracle for the C4 witness: code `"A"` on the first call,
`"B"` after one feedback round, `"C"` after two. -/
def c4Llm : List ChatMsg → String := fun ms =>
  if ms.length ≤ 1 then "A" else if ms.length ≤ 3 then "B" else "C"

/-- First failure of the C4 witness scenario. -/
def c4Err1 : PyError := ⟨"KeyError", "\x27region\x27"⟩

/-- Second failure of the C4 witness scenario. -/
def c4Err2 : PyError := ⟨"TypeError", "bad operand"⟩

/-- Execution oracle for the C4 witness: snippets `"A"` and `"B"` raise,
anything else populates a valid `result` dict. -/
def c4Ex : String → ExecOutcome := fun code =>
  if code = "A" then .error c4Err1
  else if code = "B" then .error c4Err2
  else .ok (some (.dict [("summary", .pstr "done"), ("data", .pint 1)]), none)

theorem c4_retry_bound_and_third_attempt_success_witness :
    (∀ (llm2 : List ChatMsg → String) (ex2 : String → ExecOutcome)
        (df : Option Unit) (fn : String) (av : List String) (cs rq : String),
      (run_analytics llm2 ex2 df fn av cs rq).2 ≤ MAX_RETRIES) ∧
    run_analytics c4Llm c4Ex (some ()) "sales.csv" [] "CTX" "average revenue" =
      (.ok [("summary", .pstr "done"), ("data", .pint 1), ("code", .pstr "C")], 3) :=
  c4_retry_bound_and_third_attempt_success c4Llm c4Ex "sales.csv" [] "CTX"
    "average revenue" c4Err1 c4Err2 [("summary", .pstr "done"), ("data", .pint 1)]
    (by rfl) (by rfl) (by rfl)

/-! ## C8: all attempts fail, last exception re-raised unmodified -/

/-- C8: when all `MAX_RETRIES` attempts fail, the loop re-raises the last
execution exception to the caller unmodified after exactly 3 completion
calls; the retry transcript is local to the loop and is not part of the
returned value, so no retry turn can reach the conversation history. -/
theorem c8_all_attempts_fail_reraises_last
    (llm : List ChatMsg → String) (ex : String → ExecOutcome)
    (filename : String) (available : List String) (context_str request : String)
    (e1 e2 e3 : PyError)
    (h1 : execute_analytics_code
      (ex (clean_code (llm (seedMessages context_str request)))) = .error e1)
    (h2 : execute_analytics_code (ex (clean_code (llm
      (afterFailure llm (seedMessages context_str request) e1)))) = .error e2)
    (h3 : execute_analytics_code (ex (clean_code (llm
      (afterFailure llm (afterFailure llm (seedMessages context_str request) e1) e2)))) =
        .error e3) :
    run_analytics llm ex (some ()) filename available context_str request =
      (.error e3, 3) := by
  have A1 : run_analytics_loop llm ex 3 (seedMessages context_str request) =
      ((run_analytics_loop llm ex 2
          (afterFailure llm (seedMessages context_str request) e1)).1,
       (run_analytics_loop llm ex 2
          (afterFailure llm (seedMessages context_str request) e1)).2 + 1) := by
    have h := run_analytics_loop_succ_err llm ex 2 (seedMessages context_str request) e1 h1
    rw [if_neg (by decide : ¬ ((2 : Nat) = 0))] at h
    exact h
  have A2 : run_analytics_loop llm ex 2
      (afterFailure llm (seedMessages context_str request) e1) =
      ((run_analytics_loop llm ex 1
          (afterFailure llm (afterFailure llm (seedMessages context_str request) e1) e2)).1,
       (run_analytics_loop llm ex 1
          (afterFailure llm (afterFailure llm (seedMessages context_str request) e1) e2)).2
         + 1) := by
    have h := run_analytics_loop_succ_err llm ex 1
      (afterFailure llm (seedMessages context_str request) e1) e2 h2
    rw [if_neg (by decide : ¬ ((1 : Nat) = 0))] at h
    exact h
  have A3 : run_analytics_loop llm ex 1
      (afterFailure llm (afterFailure llm (seedMessages context_str request) e1) e2) =
      (.error e3, 1) := by
    have h := run_analytics_loop_succ_err llm ex 0
      (afterFailure llm (afterFailure llm (seedMessages context_str request) e1) e2) e3 h3
    rw [if_pos rfl] at h
    exact h
  show run_analytics_loop llm ex 3 (seedMessages context_str request) = _
  rw [A1, A2, A3]

/-- Third failure of the C8 witness scenario. -/
def c8Err3 : PyError := ⟨"NameError", "name \x27np\x27 is not defined"⟩

/-- Execution oracle for the C8 witness: every snippet raises. -/
def c8Ex : String → ExecOutcome := fun code =>
  if code = "A" then .error c4Err1
  else if code = "B" then .error c4Err2
  else .error c8Err3

theorem c8_all_attempts_fail_reraises_last_witness :
    run_analytics c4Llm c8Ex (some ()) "sales.csv" [] "CTX" "average revenue" =
      (.error c8Err3, 3) :=
  c8_all_attempts_fail_reraises_last c4Llm c8Ex "sales.csv" [] "CTX"
    "average revenue" c4Err1 c4Err2 c8Err3 (by rfl) (by rfl) (by rfl)

/-! ## C2: the two synthesis paths do not share the retry state machine -/

/-- Completion oracle for the C2 counterexample, chart side. -/
def c2PlotLlm : String → String := fun _ => "bad"

/-- The execution failure used in the C2 counterexample. -/
def c2Err : PyError := ⟨"KeyError", "\x27missing\x27"⟩

/-- Execution oracle for the C2 counterexample, chart side: the first
generated snippet `"bad"` raises, while the corrected snippet `"fixed"`
would produce a figure. -/
def c2PlotEx : String → ExecOutcome := fun code =>
  if code = "bad" then .error c2Err
  else if code = "fixed" then .ok (some (.prim (.pobj "Figure")), none)
  else .ok (none, none)

/-- HTML-serialization oracle for the C2 counterexample. -/
def c2PlotHtml : PyValue → Except PyError String := fun _ => .ok "<div>chart</div>"

/-- Completion oracle for the C2 counterexample, analysis side: `"bad"`
first, `"good"` after one feedback round. -/
def c2AnaLlm : List ChatMsg → String := fun ms =>
  if ms.length ≤ 1 then "bad" else "good"

/-- Execution oracle for the C2 counterexample, analysis side. -/
def c2AnaEx : String → ExecOutcome := fun code =>
  if code = "bad" then .error c2Err
  else .ok (some (.dict [("summary", .pstr "s"), ("data", .pint 1)]), none)

/-- C2 counterexample: with an executor that fails the first generated
snippet and succeeds on a corrected one, the chart path propagates the
first execution error after exactly one completion call — it never
retries — while the analysis path on the matching oracles recovers with
a second completion call.  The two paths therefore do not implement the
same retry state machine. -/
theorem c2_counterexample :
    create_plot_from_request c2PlotLlm c2PlotEx c2PlotHtml (some ())
      "sales.csv" [] "PROMPT" = (.error c2Err, 1) ∧
    execute_plot_code c2PlotEx c2PlotHtml "fixed" = .ok "<div>chart</div>" ∧
    run_analytics c2AnaLlm c2AnaEx (some ()) "sales.csv" [] "CTX" "REQ" =
      (.ok [("summary", .pstr "s"), ("data", .pint 1), ("code", .pstr "good")], 2) :=
  ⟨rfl, rfl, rfl⟩

/-- C2 amended: only the analysis path implements the retry state
machine — on an execution failure it appends the error feedback and
retries while `attempt < MAX_RETRIES` — whereas the chart path performs
exactly one draft–execute pass and propagates the first execution
failure to the caller with a single completion call and no retry. -/
theorem c2_amended_paths_differ
    (llm : List ChatMsg → String) (ex : String → ExecOutcome)
    (fn : String) (av : List String) (context_str request : String)
    (e1 : PyError) (r : AnalyticsDict)
    (llmP : String → String) (exP : String → ExecOutcome)
    (toHtml : PyValue → Except PyError String)
    (fnP : String) (avP : List String) (prompt : String) (eP : PyError)
    (h1 : execute_analytics_code
      (ex (clean_code (llm (seedMessages context_str request)))) = .error e1)
    (h2 : execute_analytics_code (ex (clean_code (llm
      (afterFailure llm (seedMessages context_str request) e1)))) = .ok r)
    (hp : execute_plot_code exP toHtml (generate_plot_code llmP prompt) = .error eP) :
    run_analytics llm ex (some ()) fn av context_str request =
      (.ok (dictSet r "code" (.pstr (clean_code (llm
        (afterFailure llm (seedMessages context_str request) e1))))), 2) ∧
    create_plot_from_request llmP exP toHtml (some ()) fnP avP prompt =
      (.error eP, 1) := by
  constructor
  · have A1 : run_analytics_loop llm ex 3 (seedMessages context_str request) =
        ((run_analytics_loop llm ex 2
            (afterFailure llm (seedMessages context_str request) e1)).1,
         (run_analytics_loop llm ex 2
            (afterFailure llm (seedMessages context_str request) e1)).2 + 1) := by
      have h := run_analytics_loop_succ_err llm ex 2 (seedMessages context_str request) e1 h1
      rw [if_neg (by decide : ¬ ((2 : Nat) = 0))] at h
      exact h
    have A2 : run_analytics_loop llm ex 2
        (afterFailure llm (seedMessages context_str request) e1) =
        (.ok (dictSet r "code" (.pstr (clean_code (llm
          (afterFailure llm (seedMessages context_str request) e1))))), 1) :=
      run_analytics_loop_succ_ok llm ex 1 _ r h2
    show run_analytics_loop llm ex 3 (seedMessages context_str request) = _
    rw [A1, A2]
  · show ((match execute_plot_code exP toHtml (generate_plot_code llmP prompt) with
      | .error e => ((.error e : Except PyError (String × String)), 1)
      | .ok html => (.ok (html, generate_plot_code llmP prompt), 1))) = (.error eP, 1)
    rw [hp]

theorem c2_amended_paths_differ_witness :
    run_analytics c2AnaLlm c2AnaEx (some ()) "sales.csv" [] "CTX" "REQ" =
      (.ok [("summary", .pstr "s"), ("data", .pint 1), ("code", .pstr "good")], 2) ∧
    create_plot_from_request c2PlotLlm c2PlotEx c2PlotHtml (some ())
      "sales.csv" [] "PROMPT" = (.error c2Err, 1) :=
  c2_amended_paths_differ c2AnaLlm c2AnaEx "sales.csv" [] "CTX" "REQ" c2Err
    [("summary", .pstr "s"), ("data", .pint 1)] c2PlotLlm c2PlotEx c2PlotHtml
    "sales.csv" [] "PROMPT" c2Err (by rfl) (by rfl) (by rfl)

/-! ## C7: presence of the designated variable vs. success -/

/-- C7: evaluation of the harness at the divergence point.  A snippet
that populates `result` with the falsy value `0` (locals binding, no
global binding) is rejected with `ValueError: No result variable
created`, because the locals-`or`-globals chain drops falsy values —
the spec instead requires every populated non-mapping to be coerced to
a `summary`/`data` dict, as does happen for the truthy value `5`.  The
absent-variable cases do raise as specified, for both harnesses. -/
theorem c7_falsy_result_raises_instead_of_coercing :
    execute_analytics_code (.ok (some (.prim (.pint 0)), none)) =
      .error ⟨"ValueError", "No \x27result\x27 variable created"⟩ ∧
    execute_analytics_code (.ok (some (.prim (.pint 5)), none)) =
      .ok [("summary", .pstr "5"), ("data", .pint 5)] ∧
    execute_analytics_code (.ok (none, none)) =
      .error ⟨"ValueError", "No \x27result\x27 variable created"⟩ ∧
    execute_plot_code (fun _ => .ok (none, none)) (fun _ => .ok "") "code" =
      .error ⟨"ValueError", "Code executed but no \x27fig\x27 variable was created"⟩ :=
  ⟨rfl, rfl, rfl, rfl⟩

/-! ## C9: shape of a successful analytics result -/

/-- Completion oracle for the C9 counterexample. -/
def c9Llm : List ChatMsg → String := fun _ => "resp9"

/-- Execution oracle for the C9 counterexample: the snippet assigns
`result = {"summary": 42}` — a dict whose `summary` value is not a
string. -/
def c9Ex : String → ExecOutcome := fun code =>
  if code = "resp9" then .ok (some (.dict [("summary", .pint 42)]), none)
  else .ok (none, none)

/-- C9 counterexample: a successful `run_analytics` call whose returned
mapping carries a non-string `summary` value — the snippet-supplied
integer `42` is passed through untouched, refuting the claim that the
`summary` key always holds a string. -/
theorem c9_counterexample :
    (run_analytics c9Llm c9Ex (some ()) "f.csv" [] "CTX" "REQ").1 =
      .ok [("summary", .pint 42), ("code", .pstr "resp9")] ∧
    isStringValue
      (dictGet [("summary", PyPrim.pint 42), ("code", PyPrim.pstr "resp9")] "summary") =
      false :=
  ⟨rfl, rfl⟩

/-- Transcripts reachable from a starting transcript through zero or more
failed attempts: each step drafts `clean_code (llm msgs)`, observes an
execution failure, and extends the transcript with the response and the
error feedback.  The transcript of the successful attempt of a run is
reachable from the seed transcript. -/
inductive ReachableTranscript (llm : List ChatMsg → String) (ex : String → ExecOutcome) :
    List ChatMsg → List ChatMsg → Prop where
  | refl (msgs : List ChatMsg) : ReachableTranscript llm ex msgs msgs
  | step (msgs msgs2 : List ChatMsg) (e : PyError)
      (hfail : execute_analytics_code (ex (clean_code (llm msgs))) = .error e)
      (hrest : ReachableTranscript llm ex (afterFailure llm msgs e) msgs2) :
      ReachableTranscript llm ex msgs msgs2

theorem run_analytics_loop_ok_reachable (llm : List ChatMsg → String)
    (ex : String → ExecOutcome) :
    ∀ (fuel : Nat) (messages : List ChatMsg) (R : AnalyticsDict),
      (run_analytics_loop llm ex fuel messages).1 = .ok R →
      ∃ msgs r, ReachableTranscript llm ex messages msgs ∧
        execute_analytics_code (ex (clean_code (llm msgs))) = .ok r ∧
        R = dictSet r "code" (.pstr (clean_code (llm msgs))) := by
  intro fuel
  induction fuel with
  | zero =>
    intro messages R h
    exact absurd h (by simp [run_analytics_loop])
  | succ n ih =>
    intro messages R h
    rcases hE : execute_analytics_code (ex (clean_code (llm messages))) with e | r
    · rw [run_analytics_loop_succ_err llm ex n messages e hE] at h
      by_cases hn : n = 0
      · rw [if_pos hn] at h
        exact absurd h (by simp)
      · rw [if_neg hn] at h
        obtain ⟨msgs, r, hreach, hok, hR⟩ := ih (afterFailure llm messages e) R h
        exact ⟨msgs, r, ReachableTranscript.step messages msgs e hE hreach, hok, hR⟩
    · rw [run_analytics_loop_succ_ok llm ex n messages r hE] at h
      have h2 : (Except.ok (dictSet r "code" (.pstr (clean_code (llm messages))))
          : Except PyError AnalyticsDict) = .ok R := h
      injection h2 with h3
      exact ⟨messages, r, ReachableTranscript.refl messages, hE, h3.symm⟩

theorem execute_analytics_code_summary_of_prim (lcls glbls : Option PyValue)
    (v : PyPrim) (r : AnalyticsDict)
    (hval : getDesignated lcls glbls = .prim v)
    (h : execute_analytics_code (.ok (lcls, glbls)) = .ok r) :
    dictGet r "summary" = some (.pstr v.pyStr) := by
  simp only [execute_analytics_code] at h
  rw [hval] at h
  by_cases hv : v = PyPrim.pnone
  · rw [if_pos (by rw [hv])] at h
    exact Except.noConfusion h
  · rw [if_neg (by intro hh; exact hv (PyValue.prim.inj hh))] at h
    have h2 : (Except.ok [("summary", PyPrim.pstr v.pyStr), ("data", v)]
        : Except PyError AnalyticsDict) = .ok r := h
    injection h2 with h3
    subst h3
    rfl

theorem execute_analytics_code_summary_of_default (lcls glbls : Option PyValue)
    (es : List (String × PyPrim)) (r : AnalyticsDict)
    (hval : getDesignated lcls glbls = .dict es)
    (hmiss : dictGet es "summary" = none)
    (h : execute_analytics_code (.ok (lcls, glbls)) = .ok r) :
    dictGet r "summary" = some (.pstr "Analysis completed.") := by
  simp only [execute_analytics_code] at h
  rw [hval] at h
  rw [if_neg (by intro hh; exact PyValue.noConfusion hh)] at h
  replace h : (if (dictGet es "summary").isNone = true then
      Except.ok (α := AnalyticsDict) (es ++ [("summary", PyPrim.pstr "Analysis completed.")])
      else Except.ok es) = Except.ok r := h
  rw [if_pos (by rw [hmiss]; rfl)] at h
  injection h with h3
  subst h3
  have hnone : es.find? (fun e => e.1 == "summary") = none := by
    unfold dictGet at hmiss
    rcases hf : es.find? (fun e => e.1 == "summary") with _ | e0
    · exact hf
    · rw [hf] at hmiss
      simp at hmiss
  unfold dictGet
  rw [List.find?_append, hnone]
  rfl

/-- C9 amended: every successful `run_analytics` call returns the result
mapping of its final attempt with the final generated snippet written
under `"code"`: there is a transcript `msgs`, reachable from the seed
through the failed attempts, whose drafted snippet
`clean_code (llm msgs)` executed successfully, and the returned mapping
is exactly that execution's result with the snippet stored (as a string)
under `"code"`; it always contains a `"summary"` key, whose value is
moreover the specific string the harness supplies whenever the harness
itself supplied it — `str(result)` when the snippet's `result` was a
non-mapping, `"Analysis completed."` when its dict lacked a summary —
while a snippet-supplied `summary` value is passed through and may be a
non-string. -/
theorem c9_amended_summary_and_code_keys
    (llm : List ChatMsg → String) (ex : String → ExecOutcome)
    (df : Option Unit) (fn : String) (av : List String) (cs rq : String)
    (R : AnalyticsDict)
    (h : (run_analytics llm ex df fn av cs rq).1 = .ok R) :
    ∃ msgs r,
      ReachableTranscript llm ex (seedMessages cs rq) msgs ∧
      execute_analytics_code (ex (clean_code (llm msgs))) = .ok r ∧
      R = dictSet r "code" (.pstr (clean_code (llm msgs))) ∧
      dictGet R "code" = some (.pstr (clean_code (llm msgs))) ∧
      (∃ v, dictGet R "summary" = some v) ∧
      (∀ lcls glbls, ex (clean_code (llm msgs)) = .ok (lcls, glbls) →
        (∀ v : PyPrim, getDesignated lcls glbls = .prim v →
          dictGet R "summary" = some (.pstr v.pyStr)) ∧
        (∀ es, getDesignated lcls glbls = .dict es → dictGet es "summary" = none →
          dictGet R "summary" = some (.pstr "Analysis completed."))) := by
  cases df with
  | none => exact absurd h (by simp [run_analytics])
  | some u =>
    obtain ⟨msgs, r, hreach, hok, hR⟩ :=
      run_analytics_loop_ok_reachable llm ex MAX_RETRIES (seedMessages cs rq) R h
    obtain ⟨v, hv⟩ := execute_analytics_code_ok_summary _ r hok
    refine ⟨msgs, r, hreach, hok, hR, ?_, ?_, ?_⟩
    · rw [hR]
      exact dictGet_dictSet_self r "code" (.pstr (clean_code (llm msgs)))
    · exact ⟨v, by
        rw [hR, dictGet_dictSet_ne r "code" (.pstr (clean_code (llm msgs))) "summary"
          (by decide), hv]⟩
    · intro lcls glbls hexec
      have hok2 := hok
      rw [hexec] at hok2
      constructor
      · intro w hval
        have hs := execute_analytics_code_summary_of_prim lcls glbls w r hval hok2
        rw [hR, dictGet_dictSet_ne r "code" (.pstr (clean_code (llm msgs))) "summary"
          (by decide), hs]
      · intro es hval hmiss
        have hs := execute_analytics_code_summary_of_default lcls glbls es r hval hmiss hok2
        rw [hR, dictGet_dictSet_ne r "code" (.pstr (clean_code (llm msgs))) "summary"
          (by decide), hs]

theorem c9_amended_summary_and_code_keys_witness :
    ∃ msgs r,
      ReachableTranscript c9Llm c9Ex (seedMessages "CTX" "REQ") msgs ∧
      execute_analytics_code (c9Ex (clean_code (c9Llm msgs))) = .ok r ∧
      [("summary", PyPrim.pint 42), ("code", PyPrim.pstr "resp9")] =
        dictSet r "code" (.pstr (clean_code (c9Llm msgs))) ∧
      dictGet [("summary", PyPrim.pint 42), ("code", PyPrim.pstr "resp9")] "code" =
        some (.pstr (clean_code (c9Llm msgs))) ∧
      (∃ v, dictGet [("summary", PyPrim.pint 42), ("code", PyPrim.pstr "resp9")]
        "summary" = some v) ∧
      (∀ lcls glbls, c9Ex (clean_code (c9Llm msgs)) = .ok (lcls, glbls) →
        (∀ v : PyPrim, getDesignated lcls glbls = .prim v →
          dictGet [("summary", PyPrim.pint 42), ("code", PyPrim.pstr "resp9")]
            "summary" = some (.pstr v.pyStr)) ∧
        (∀ es, getDesignated lcls glbls = .dict es → dictGet es "summary" = none →
          dictGet [("summary", PyPrim.pint 42), ("code", PyPrim.pstr "resp9")]
            "summary" = some (.pstr "Analysis completed."))) :=
  c9_amended_summary_and_code_keys c9Llm c9Ex (some ()) "f.csv" [] "CTX" "REQ"
    [("summary", PyPrim.pint 42), ("code", PyPrim.pstr "resp9")] (by rfl)

/-! ## C10: code-fence stripping and idempotence -/

theorem dropWhile_eq_cons_head {α : Type} (p : α → Bool) (l : List α) (a : α)
    (rest : List α) (h : l.dropWhile p = a :: rest) : p a = false := by
  induction l with
  | nil => simp at h
  | cons b bs ih =>
    rw [List.dropWhile_cons] at h
    by_cases hb : p b
    · rw [if_pos hb] at h
      exact ih h
    · rw [if_neg hb] at h
      injection h with h1 h2
      subst h1
      exact Bool.eq_false_iff.mpr hb

theorem stripBoth_idem {α : Type} (p : α → Bool) (l : List α) :
    (((l.dropWhile p).rdropWhile p).dropWhile p).rdropWhile p =
      (l.dropWhile p).rdropWhile p := by
  have hdw : ((l.dropWhile p).rdropWhile p).dropWhile p =
      (l.dropWhile p).rdropWhile p := by
    rcases hm : (l.dropWhile p).rdropWhile p with _ | ⟨a, as⟩
    · simp
    · have hpre : (l.dropWhile p).rdropWhile p <+: l.dropWhile p :=
        List.rdropWhile_prefix p (l.dropWhile p)
      rw [hm] at hpre
      obtain ⟨t, ht⟩ := hpre
      have hd : l.dropWhile p = a :: (as ++ t) := by
        rw [← ht]
        rfl
      have hpa : p a = false := dropWhile_eq_cons_head p l a (as ++ t) hd
      rw [List.dropWhile_cons_of_neg (by simp [hpa])]
  rw [hdw, List.rdropWhile_idempotent]

/-- Stripping is idempotent — a second `str.strip()` changes nothing. -/
theorem pyStripL_idem (l : List Char) : pyStripL (pyStripL l) = pyStripL l :=
  stripBoth_idem isPySpace l

theorem startsWithL_of_append (p q l : List Char)
    (h : startsWithL (p ++ q) l = true) : startsWithL p l = true := by
  induction p generalizing l with
  | nil => rfl
  | cons a as ih =>
    cases l with
    | nil => simp [startsWithL] at h
    | cons b bs =>
      rw [List.cons_append] at h
      simp only [startsWithL, Bool.and_eq_true] at h ⊢
      exact ⟨h.1, ih bs h.2⟩

/-- On input with neither a leading nor a trailing fence, `_clean_code`
only strips whitespace. -/
theorem clean_codeL_of_no_fence (c : List Char)
    (hPy : startsWithL fencePython c = false)
    (hT : startsWithL fenceTicks c = false)
    (hE : endsWithL fenceTicks c = false) :
    clean_codeL c = pyStripL c := by
  simp [clean_codeL, hPy, hT, hE]

theorem clean_codeL_eq_strip (l : List Char) : ∃ X, clean_codeL l = pyStripL X :=
  ⟨_, rfl⟩

/-- C10 counterexample: `_clean_code` is not idempotent.  On
`"```\n```python\ncode\n```"` the first pass strips the outer fence and
the surrounding whitespace, exposing a fresh leading ```` ```python ````
that only a second pass removes. -/
theorem c10_counterexample :
    clean_code (clean_code "```\n```python\ncode\n```") ≠
      clean_code "```\n```python\ncode\n```" := by
  decide

/-- C10 amended: `_clean_code` is idempotent on exactly the inputs whose
cleaned form does not itself start or end with a code fence; in general
a second application can strip further fence layers. -/
theorem c10_amended_idempotent_without_residual_fence (s : String)
    (h1 : startsWithL fenceTicks (clean_code s).data = false)
    (h2 : endsWithL fenceTicks (clean_code s).data = false) :
    clean_code (clean_code s) = clean_code s := by
  have hdata : (clean_code s).data = clean_codeL s.data := rfl
  rw [hdata] at h1 h2
  have hPy : startsWithL fencePython (clean_codeL s.data) = false := by
    cases hq : startsWithL fencePython (clean_codeL s.data) with
    | false => rfl
    | true =>
      have hsplit : fencePython = fenceTicks ++ "python".data := by decide
      have hticks : startsWithL fenceTicks (clean_codeL s.data) = true :=
        startsWithL_of_append _ _ _ (by rw [← hsplit]; exact hq)
      rw [hticks] at h1
      exact Bool.noConfusion h1
  obtain ⟨X, hX⟩ := clean_codeL_eq_strip s.data
  have hmain : clean_codeL (clean_codeL s.data) = clean_codeL s.data := by
    rw [clean_codeL_of_no_fence _ hPy h1 h2, hX, pyStripL_idem X]
  exact congrArg String.mk hmain

theorem c10_amended_idempotent_without_residual_fence_witness :
    startsWithL fenceTicks (clean_code "```python\nx = 1\n```").data = false ∧
    endsWithL fenceTicks (clean_code "```python\nx = 1\n```").data = false ∧
    clean_code (clean_code "```python\nx = 1\n```") =
      clean_code "```python\nx = 1\n```" :=
  ⟨by decide, by decide,
    c10_amended_idempotent_without_residual_fence "```python\nx = 1\n```"
      (by decide) (by decide)⟩

/-! ## Store lemmas for the index-lifecycle claims -/

theorem csv_to_documents_source (table : Table) (fname : String) (d : Doc)
    (h : d ∈ csv_to_documents table fname) : d.source = fname := by
  unfold csv_to_documents at h
  obtain ⟨ir, hmem, rfl⟩ := List.mem_map.mp h
  rfl

theorem filter_csv_docs_self (table : Table) (fname : String) :
    (csv_to_documents table fname).filter (fun d => d.source != fname) = [] :=
  List.filter_eq_nil_iff.mpr (by
    intro d hd
    have := csv_to_documents_source table fname d hd
    simp [this])

theorem filter_csv_docs_ne (table : Table) (nm fname : String) (h : ¬ nm = fname) :
    (csv_to_documents table nm).filter (fun d => d.source != fname) =
      csv_to_documents table nm :=
  List.filter_eq_self.mpr (by
    intro d hd
    have := csv_to_documents_source table nm d hd
    simp [this, h])

theorem flatten_filter_meta (fs : List (String × Table)) (fname : String) :
    ∀ ms : List FileMeta,
      ((ms.filter (fun f => f.name != fname)).map
        (fun m => csv_to_documents (lookupTable fs m.name) m.name)).flatten =
      ((ms.map (fun m => csv_to_documents (lookupTable fs m.name) m.name)).flatten).filter
        (fun d => d.source != fname) := by
  intro ms
  induction ms with
  | nil => rfl
  | cons m ms ih =>
    by_cases hm : m.name = fname
    · rw [List.filter_cons_of_neg (by simp [hm]), List.map_cons, List.flatten_cons,
        List.filter_append, hm, filter_csv_docs_self, ih]
      rfl
    · rw [List.filter_cons_of_pos (by simp [hm]), List.map_cons, List.map_cons,
        List.flatten_cons, List.flatten_cons, List.filter_append,
        filter_csv_docs_ne _ _ _ hm, ih]

theorem registeredDocs_mk_filter (s : StoreState) (fname : String)
    (idx : Option (List Doc)) :
    registeredDocs ⟨s.files, s.metadata.filter (fun f => f.name != fname), idx⟩ =
      (registeredDocs s).filter (fun d => d.source != fname) :=
  flatten_filter_meta s.files fname s.metadata

/-- DeleteFile preserves the store invariant, for every file name
(registered or not). -/
theorem storeInv_delete_file (s : StoreState) (fname : String) (h : storeInv s) :
    storeInv (delete_file s fname).1 := by
  by_cases hex : s.metadata.any (fun f => f.name == fname)
  · have hstate : (delete_file s fname).1 =
        ⟨s.files, s.metadata.filter (fun f => f.name != fname),
          match s.index with
          | some docs =>
            if (docs.filter (fun d => d.source != fname)).isEmpty then none
            else some (docs.filter (fun d => d.source != fname))
          | none => none⟩ := by
      simp only [delete_file]
      rw [if_neg (by simp [hex])]
    rw [hstate]
    cases hidx : s.index with
    | none =>
      have hreg : registeredDocs s = [] := by
        have h2 := h
        unfold storeInv indexDocs at h2
        rw [hidx] at h2
        exact (h2.symm).eq_nil
      unfold storeInv
      rw [registeredDocs_mk_filter s fname none, hreg]
      simp [indexDocs]
    | some docs =>
      have hdocs : List.Perm docs (registeredDocs s) := by
        have h2 := h
        unfold storeInv indexDocs at h2
        rw [hidx] at h2
        simpa using h2
      have hflt : List.Perm (docs.filter (fun d => d.source != fname))
          ((registeredDocs s).filter (fun d => d.source != fname)) :=
        hdocs.filter _
      unfold storeInv
      rw [registeredDocs_mk_filter s fname _]
      by_cases hemp : (docs.filter (fun d => d.source != fname)).isEmpty
      · have hnil : docs.filter (fun d => d.source != fname) = [] :=
          List.isEmpty_iff.mp hemp
        rw [hnil] at hflt
        have : (registeredDocs s).filter (fun d => d.source != fname) = [] :=
          (hflt.symm).eq_nil
        rw [this]
        simp [indexDocs, hemp, hnil]
      · simp only [indexDocs, hemp, if_neg, Bool.false_eq_true, if_false,
          Option.getD_some]
        exact hflt
  · have hstate : (delete_file s fname).1 = s := by
      simp only [delete_file]
      rw [if_pos (by simpa using hex)]
    rw [hstate]
    exact h

theorem lookupTable_fileStoreSet_self (fs : List (String × Table)) (fname : String)
    (table : Table) :
    lookupTable (fileStoreSet fs fname table) fname = table := by
  unfold fileStoreSet
  by_cases hA : fs.any (fun e => e.1 == fname)
  · rw [if_pos hA]
    unfold lookupTable
    rw [find?_overwrite_self fs fname table]
    obtain ⟨e, he, hek⟩ := List.any_eq_true.mp hA
    rcases hf : fs.find? (fun e => e.1 == fname) with _ | e0
    · exact absurd (List.find?_eq_none.mp hf e he) (by simp_all)
    · rw [hf]
      rfl
  · rw [if_neg hA]
    unfold lookupTable
    rw [List.find?_append]
    have hend : fs.find? (fun e => e.1 == fname) = none :=
      List.find?_eq_none.mpr (by
        intro x hx
        have := List.any_eq_false.mp (Bool.eq_false_iff.mpr hA) x hx
        simpa using this)
    simp [hend]

theorem lookupTable_fileStoreSet_ne (fs : List (String × Table)) (fname : String)
    (table : Table) (nm : String) (h : nm ≠ fname) :
    lookupTable (fileStoreSet fs fname table) nm = lookupTable fs nm := by
  unfold fileStoreSet
  by_cases hA : fs.any (fun e => e.1 == fname)
  · rw [if_pos hA]
    unfold lookupTable
    rw [find?_overwrite_ne fs fname table nm h]
  · rw [if_neg hA]
    unfold lookupTable
    rw [List.find?_append]
    have hone : List.find? (fun e => e.1 == nm) [(fname, table)] = none := by
      simp [Ne.symm h]
    rw [hone]
    simp

theorem metadataUpsert_fresh (ms : List FileMeta) (fm : FileMeta)
    (h : ms.any (fun m => m.name == fm.name) = false) :
    metadataUpsert ms fm = ms ++ [fm] := by
  simp [metadataUpsert, h]

theorem indexDocs_ingest (s : StoreState) (fname : String) (table : Table)
    (desc : String) :
    indexDocs (ingest_file s fname table desc).1 =
      indexDocs s ++ csv_to_documents table fname := by
  cases hs : s.index <;> simp [ingest_file, indexDocs, hs]

theorem registeredDocs_ingest_fresh (s : StoreState) (fname : String) (table : Table)
    (desc : String) (hfresh : s.metadata.any (fun m => m.name == fname) = false) :
    registeredDocs (ingest_file s fname table desc).1 =
      registeredDocs s ++ csv_to_documents table fname := by
  have hstate : (ingest_file s fname table desc).1 =
      ⟨fileStoreSet s.files fname table,
        s.metadata ++ [⟨fname, desc, table.length, columnsOf table⟩],
        match s.index with
        | some docs => some (docs ++ csv_to_documents table fname)
        | none => some (csv_to_documents table fname)⟩ := by
    show (⟨fileStoreSet s.files fname table,
        metadataUpsert s.metadata ⟨fname, desc, table.length, columnsOf table⟩,
        match s.index with
        | some docs => some (docs ++ csv_to_documents table fname)
        | none => some (csv_to_documents table fname)⟩ : StoreState) = _
    rw [metadataUpsert_fresh s.metadata ⟨fname, desc, table.length, columnsOf table⟩
      hfresh]
  rw [hstate]
  unfold registeredDocs
  rw [List.map_append, List.flatten_append]
  have hne : ∀ m ∈ s.metadata, ¬ m.name = fname := by
    intro m hm
    have := List.any_eq_false.mp hfresh m hm
    simpa using this
  congr 1
  · have hmaps : s.metadata.map (fun m =>
        csv_to_documents (lookupTable (fileStoreSet s.files fname table) m.name) m.name) =
        s.metadata.map (fun m =>
          csv_to_documents (lookupTable s.files m.name) m.name) :=
      List.map_congr_left (fun m hm => by
        rw [lookupTable_fileStoreSet_ne s.files fname table m.name (hne m hm)])
    rw [hmaps]
  · simp [lookupTable_fileStoreSet_self]

/-- Ingest of a name that is not currently registered preserves the store
invariant. -/
theorem storeInv_ingest_file_fresh (s : StoreState) (fname : String) (table : Table)
    (desc : String) (h : storeInv s)
    (hfresh : s.metadata.any (fun m => m.name == fname) = false) :
    storeInv (ingest_file s fname table desc).1 := by
  unfold storeInv
  rw [indexDocs_ingest, registeredDocs_ingest_fresh s fname table desc hfresh]
  exact h.append_right _

/-! ## C3: the index invariant and its failure under re-ingestion -/

/-- C3 counterexample: the invariant (index = union of registered
documents) holds after a first `Ingest("a.csv")` on an empty store, but
re-ingesting the same file name violates it — `ingest_file` appends the
new documents to the existing index without removing the old ones, so
the index becomes a strict superset of the registered documents. -/
theorem c3_counterexample :
    indexConsistent ((ingest_file ⟨[], [], none⟩ "a.csv" [[("c", "1")]] "desc").1) ∧
    ¬ indexConsistent
      ((ingest_file ((ingest_file ⟨[], [], none⟩ "a.csv" [[("c", "1")]] "desc").1)
        "a.csv" [[("c", "1")]] "desc").1) := by
  constructor
  · intro docs hdocs
    have hidx : ((ingest_file ⟨[], [], none⟩ "a.csv" [[("c", "1")]] "desc").1).index =
        some [⟨"c: 1", "a.csv", 0⟩] := rfl
    rw [hidx] at hdocs
    injection hdocs with hd
    subst hd
    decide
  · intro hcon
    have hperm := hcon [⟨"c: 1", "a.csv", 0⟩, ⟨"c: 1", "a.csv", 0⟩] rfl
    exact absurd hperm (by decide)

/-- C3 amended: the invariant is preserved by every `DeleteFile` call and
by every `Ingest` of a file name not currently registered in metadata;
re-ingesting an already-registered name breaks it (see the
counterexample), because the old rows of that file stay in the index
alongside the new ones. -/
theorem c3_amended_invariant_preserved (s : StoreState) (fname : String)
    (table : Table) (desc : String) (h : storeInv s)
    (hfresh : s.metadata.any (fun m => m.name == fname) = false) :
    (∀ g : String, storeInv (delete_file s g).1) ∧
    storeInv (ingest_file s fname table desc).1 :=
  ⟨fun g => storeInv_delete_file s g h,
   storeInv_ingest_file_fresh s fname table desc h hfresh⟩

theorem c3_amended_invariant_preserved_witness :
    (∀ g : String, storeInv (delete_file (⟨[], [], none⟩ : StoreState) g).1) ∧
    storeInv ((ingest_file (⟨[], [], none⟩ : StoreState) "a.csv" [[("c", "1")]]
      "desc").1) :=
  c3_amended_invariant_preserved ⟨[], [], none⟩ "a.csv" [[("c", "1")]] "desc"
    (by unfold storeInv; decide) (by decide)

/-! ## C5: DeleteFile on an unregistered name fails with no effect -/

/-- C5: `delete_file` on a name absent from metadata raises `ValueError`
and leaves the whole persisted state — metadata file list, index files
and stored copies — unchanged. -/
theorem c5_delete_file_not_found (s : StoreState) (fname : String)
    (h : s.metadata.any (fun f => f.name == fname) = false) :
    delete_file s fname =
      (s, .error ⟨"ValueError", "File \x27" ++ fname ++ "\x27 not found in metadata"⟩) := by
  simp only [delete_file]
  rw [if_pos h]

/-- A store with one registered file, used by the C5 witness. -/
def c5State : StoreState :=
  ⟨[("b.csv", [[("x", "1")]])], [⟨"b.csv", "d", 1, ["x"]⟩],
    some [⟨"x: 1", "b.csv", 0⟩]⟩

theorem c5_delete_file_not_found_witness :
    delete_file c5State "a.csv" =
      (c5State, .error ⟨"ValueError", "File \x27a.csv\x27 not found in metadata"⟩) :=
  c5_delete_file_not_found c5State "a.csv" (by decide)

/-! ## C6: deleting the only registered file -/

/-- C6: deleting the only registered file returns `remaining_files = 0`,
leaves the metadata file list empty and no index artifact on disk, and a
subsequent `search_data` returns the defined empty answer rather than an
error. -/
theorem c6_delete_only_file (s : StoreState) (fname query : String)
    (sim : List Doc → String → List Doc) (fm : FileMeta)
    (hmeta : s.metadata = [fm]) (hname : fm.name = fname) (h : storeInv s) :
    (delete_file s fname).2 = .ok ⟨"deleted", fname, 0⟩ ∧
    (delete_file s fname).1.metadata = [] ∧
    (delete_file s fname).1.index = none ∧
    search_data sim (delete_file s fname).1 query =
      "No data has been ingested yet. Please upload CSV files first." := by
  have hany : s.metadata.any (fun f => f.name == fname) = true := by
    rw [hmeta]
    simp [hname]
  have hfilt : s.metadata.filter (fun f => f.name != fname) = [] := by
    rw [hmeta]
    simp [hname]
  have hremaining : ∀ docs, s.index = some docs →
      docs.filter (fun d => d.source != fname) = [] := by
    intro docs hidx
    have hdocs : List.Perm docs (registeredDocs s) := by
      have h2 := h
      unfold storeInv indexDocs at h2
      rw [hidx] at h2
      simpa using h2
    have hreg : (registeredDocs s).filter (fun d => d.source != fname) = [] := by
      unfold registeredDocs
      rw [hmeta]
      simp only [List.map_cons, List.map_nil, List.flatten_cons, List.flatten_nil,
        List.append_nil]
      rw [← hname]
      exact filter_csv_docs_self _ _
    have hp := hdocs.filter (fun d => d.source != fname)
    rw [hreg] at hp
    exact hp.eq_nil
  have hstate : delete_file s fname =
      (⟨s.files, [], none⟩, .ok ⟨"deleted", fname, 0⟩) := by
    simp only [delete_file]
    rw [if_neg (by simp [hany])]
    cases hidx : s.index with
    | none => simp [hfilt]
    | some docs =>
      have hrem := hremaining docs hidx
      simp [hfilt, hrem]
  rw [hstate]
  exact ⟨rfl, rfl, rfl, rfl⟩

/-- A store holding exactly one registered file, used by the C6 witness. -/
def c6State : StoreState :=
  ⟨[("a.csv", [[("c", "1")]])], [⟨"a.csv", "d", 1, ["c"]⟩],
    some [⟨"c: 1", "a.csv", 0⟩]⟩

/-- Similarity-search oracle used by the C6 witness. -/
def c6Sim : List Doc → String → List Doc := fun docs _ => docs.take 5

theorem c6_delete_only_file_witness :
    (delete_file c6State "a.csv").2 = .ok ⟨"deleted", "a.csv", 0⟩ ∧
    (delete_file c6State "a.csv").1.metadata = [] ∧
    (delete_file c6State "a.csv").1.index = none ∧
    search_data c6Sim (delete_file c6State "a.csv").1 "q" =
      "No data has been ingested yet. Please upload CSV files first." :=
  c6_delete_only_file c6State "a.csv" "q" c6Sim ⟨"a.csv", "d", 1, ["c"]⟩
    rfl rfl (by unfold storeInv; decide)

end CellByte
